import Mathlib

/-!
Verification development for the "Ops" typed configuration-access layer
(feelpp/libops).  The repository ships only the Python usage demo
`example.py`; the core engine (document model, path resolver, type
coercion, constraint evaluator, Ops facade) is specified by the design
document, so every definition below carries a `Modelled from the spec:`
note naming which spec component it embeds.
-/

set_option autoImplicit false

namespace LibOps

/-- Modelled from the spec: scalar kinds of document leaves
(spec section 3, Document Node: Scalar kind in Int, Float, Bool, String).
The engine source is not in the repository snapshot. -/
inductive SKind where
  | kInt
  | kFloat
  | kBool
  | kString
  deriving Repr, DecidableEq

/-- Modelled from the spec: a scalar value stored in the document or
produced by retrieval (spec section 3, Typed Result).  Float payloads are
modelled exactly as rationals; no claim exercises f64 rounding. -/
inductive Scal where
  | int (i : Int)
  | float (q : Rat)
  | bool (b : Bool)
  | str (s : String)
  deriving Repr, DecidableEq

/-- Kind tag of a scalar value. -/
def Scal.kind : Scal → SKind
  | Scal.int _ => SKind.kInt
  | Scal.float _ => SKind.kFloat
  | Scal.bool _ => SKind.kBool
  | Scal.str _ => SKind.kString

/-- Modelled from the spec: a document node — tagged union of Scalar,
Vector of scalars, and Record mapping key segments to children with
insertion order preserved (spec section 3).  Records are association
lists, first match wins, order = document order. -/
inductive Node where
  | scalar (s : Scal)
  | vector (elems : List Scal)
  | record (fields : List (String × Node))
  deriving Repr

/-- Whether a node is a Record. -/
def Node.isRecord : Node → Bool
  | Node.record _ => true
  | _ => false

/-- Modelled from the spec: the requested target type of a Get call —
a scalar kind or a vector of a scalar kind (spec section 4.2). -/
inductive Ty where
  | sc (k : SKind)
  | vec (k : SKind)
  deriving Repr, DecidableEq

/-- Modelled from the spec: a typed result produced by coercion
(spec section 3, Typed Result). -/
inductive TRes where
  | scal (s : Scal)
  | vect (l : List Scal)
  deriving Repr, DecidableEq

/-- Modelled from the spec: the error taxonomy of section 7, which is a
taxonomy of kinds ("kinds, not type names") — MissingKey, TypeMismatch,
ConstraintExpressionError, ConstraintViolation.  LoadError is out of
scope (load time, not Get time).  The human-facing key / value context
that section 7 attaches to a failure is diagnostic text and is not part
of the semantic result modelled here. -/
inductive Err where
  | missingKey
  | typeMismatch (expected : Ty)
  | constraintExprError (expr : String)
  | constraintViolation (expr : String)
  deriving Repr, DecidableEq

/-- Modelled from the spec: a literal in a constraint expression —
strings or numbers (spec section 4.5, membership predicate literal set). -/
inductive Lit where
  | ln (n : Int)
  | ls (s : String)
  deriving Repr, DecidableEq

/-- Modelled from the spec: arithmetic operators of the constraint grammar
(spec section 4.5). -/
inductive AOp where
  | add
  | sub
  | mul
  | div
  | mod
  deriving Repr, DecidableEq

/-- Modelled from the spec: comparison operators of the constraint grammar
(spec section 4.5). -/
inductive CmpOp where
  | ceq
  | cne
  | clt
  | cle
  | cgt
  | cge
  deriving Repr, DecidableEq

/-- Modelled from the spec: arithmetic-level constraint expressions over
the single bound identifier v (spec section 4.5). -/
inductive AExpr where
  | lit (l : Lit)
  | var
  | bin (o : AOp) (a b : AExpr)
  deriving Repr, DecidableEq

/-- Modelled from the spec: boolean-level constraint expressions —
comparisons, the membership predicate over a fixed literal set with
subject v, and short-circuiting and / or (spec section 4.5). -/
inductive CExpr where
  | cmp (o : CmpOp) (a b : AExpr)
  | mem (lits : List Lit)
  | cand (a b : CExpr)
  | cor (a b : CExpr)
  deriving Repr, DecidableEq

/-- Numeric view of a scalar: Int promotes to Float (modelled as Rat),
per spec section 4.5 promotion rule. -/
def Scal.toRat? : Scal → Option Rat
  | Scal.int i => some (i : Rat)
  | Scal.float q => some q
  | _ => none

/-- Modelled from the spec: arithmetic on evaluated operands.  Integer
division and modulo are Euclidean; division by zero is an evaluation
failure.  Mixed Int / Float promotes to Float (spec section 4.5). -/
def arith : AOp → Scal → Scal → Option Scal
  | AOp.add, Scal.int x, Scal.int y => some (Scal.int (x + y))
  | AOp.sub, Scal.int x, Scal.int y => some (Scal.int (x - y))
  | AOp.mul, Scal.int x, Scal.int y => some (Scal.int (x * y))
  | AOp.div, Scal.int x, Scal.int y =>
      if y = 0 then none else some (Scal.int (Int.ediv x y))
  | AOp.mod, Scal.int x, Scal.int y =>
      if y = 0 then none else some (Scal.int (Int.emod x y))
  | AOp.mod, _, _ => none
  | o, a, b =>
      match a.toRat?, b.toRat? with
      | some x, some y =>
        match o with
        | AOp.add => some (Scal.float (x + y))
        | AOp.sub => some (Scal.float (x - y))
        | AOp.mul => some (Scal.float (x * y))
        | AOp.div => if y = 0 then none else some (Scal.float (x / y))
        | AOp.mod => none
      | _, _ => none

/-- Evaluate an arithmetic expression with the retrieved value bound
to v.  Pure and side-effect-free (spec section 4.5). -/
def evalA : AExpr → Scal → Option Scal
  | AExpr.lit (Lit.ln n), _ => some (Scal.int n)
  | AExpr.lit (Lit.ls s), _ => some (Scal.str s)
  | AExpr.var, v => some v
  | AExpr.bin o a b, v =>
      match evalA a v with
      | none => none
      | some x =>
        match evalA b v with
        | none => none
        | some y => arith o x y

/-- Integer comparison. -/
def cmpInt (o : CmpOp) (x y : Int) : Bool :=
  match o with
  | CmpOp.ceq => x == y
  | CmpOp.cne => x != y
  | CmpOp.clt => decide (x < y)
  | CmpOp.cle => decide (x ≤ y)
  | CmpOp.cgt => decide (y < x)
  | CmpOp.cge => decide (y ≤ x)

/-- Rational comparison (used for Float and mixed Int / Float). -/
def cmpRat (o : CmpOp) (x y : Rat) : Bool :=
  match o with
  | CmpOp.ceq => x == y
  | CmpOp.cne => !(x == y)
  | CmpOp.clt => Rat.blt x y
  | CmpOp.cle => !(Rat.blt y x)
  | CmpOp.cgt => Rat.blt y x
  | CmpOp.cge => !(Rat.blt x y)

/-- Modelled from the spec: comparison of two evaluated operands — numeric
comparisons promote Int to Float; strings and booleans admit equality
and inequality only (spec section 4.5). -/
def cmpScal (o : CmpOp) (a b : Scal) : Option Bool :=
  match a, b with
  | Scal.int x, Scal.int y => some (cmpInt o x y)
  | Scal.str s, Scal.str t =>
      match o with
      | CmpOp.ceq => some (s == t)
      | CmpOp.cne => some (s != t)
      | _ => none
  | Scal.bool x, Scal.bool y =>
      match o with
      | CmpOp.ceq => some (x == y)
      | CmpOp.cne => some (x != y)
      | _ => none
  | _, _ =>
      match a.toRat?, b.toRat? with
      | some x, some y => some (cmpRat o x y)
      | _, _ => none

/-- Whether the value under test equals a literal of the membership set;
Int literals match Float values by promotion (spec section 4.5). -/
def litMatches (v : Scal) (l : Lit) : Bool :=
  match v, l with
  | Scal.int i, Lit.ln n => i == n
  | Scal.float q, Lit.ln n => q == (n : Rat)
  | Scal.str s, Lit.ls t => s == t
  | _, _ => false

/-- Modelled from the spec: the constraint evaluator — pure, operates on
the single typed value bound to v, short-circuits and / or left to right;
the membership predicate tests whether v equals one of the fixed literals
(spec section 4.5).  A type error during evaluation yields none. -/
def evalC : CExpr → Scal → Option Bool
  | CExpr.cmp o a b, v =>
      match evalA a v with
      | none => none
      | some x =>
        match evalA b v with
        | none => none
        | some y => cmpScal o x y
  | CExpr.mem lits, v => some (lits.any (fun l => litMatches v l))
  | CExpr.cand a b, v =>
      match evalC a v with
      | some false => some false
      | some true => evalC b v
      | none => none
  | CExpr.cor a b, v =>
      match evalC a v with
      | some true => some true
      | some false => evalC b v
      | none => none

/-- Tokens of the constraint-expression surface syntax. -/
inductive Tok where
  | num (n : Int)
  | str (s : String)
  | ident (s : String)
  | lparen
  | rparen
  | lbrace
  | rbrace
  | comma
  | plus
  | minus
  | star
  | slash
  | percent
  | opEq
  | opNe
  | opLt
  | opLe
  | opGt
  | opGe
  deriving Repr, DecidableEq

/-- Integer value of a digit run. -/
def digitsVal (l : List Char) : Int :=
  Int.ofNat (l.foldl (fun a c => a * 10 + (c.toNat - 48)) 0)

/-- Characters allowed inside an identifier. -/
def isIdentChar (c : Char) : Bool :=
  c.isAlpha || c.isDigit || c = '_'

/-- Modelled from the spec: tokenizer of the constraint grammar of
section 4.5 (numbers, single-quoted string literals, identifiers,
comparison and arithmetic operators, parentheses, braces, comma).
Malformed input yields none.  Fuel bounds recursion; each step consumes
at least one character. -/
def tokLoop : Nat → List Char → Option (List Tok)
  | 0, _ => none
  | _ + 1, [] => some []
  | f + 1, c :: cs =>
    if c = ' ' then tokLoop f cs
    else if c.isDigit then
      let ds := List.takeWhile Char.isDigit (c :: cs)
      let rest := List.dropWhile Char.isDigit (c :: cs)
      (tokLoop f rest).map (fun ts => Tok.num (digitsVal ds) :: ts)
    else if c.isAlpha || c = '_' then
      let ds := List.takeWhile isIdentChar (c :: cs)
      let rest := List.dropWhile isIdentChar (c :: cs)
      (tokLoop f rest).map (fun ts => Tok.ident (String.mk ds) :: ts)
    else if c.toNat = 39 then
      let ds := List.takeWhile (fun d => d.toNat ≠ 39) cs
      let rest := List.dropWhile (fun d => d.toNat ≠ 39) cs
      match rest with
      | [] => none
      | _ :: rs => (tokLoop f rs).map (fun ts => Tok.str (String.mk ds) :: ts)
    else if c = '<' then
      match cs with
      | '=' :: rs => (tokLoop f rs).map (fun ts => Tok.opLe :: ts)
      | _ => (tokLoop f cs).map (fun ts => Tok.opLt :: ts)
    else if c = '>' then
      match cs with
      | '=' :: rs => (tokLoop f rs).map (fun ts => Tok.opGe :: ts)
      | _ => (tokLoop f cs).map (fun ts => Tok.opGt :: ts)
    else if c = '=' then
      match cs with
      | '=' :: rs => (tokLoop f rs).map (fun ts => Tok.opEq :: ts)
      | _ => none
    else if c = '!' then
      match cs with
      | '=' :: rs => (tokLoop f rs).map (fun ts => Tok.opNe :: ts)
      | _ => none
    else if c = '+' then (tokLoop f cs).map (fun ts => Tok.plus :: ts)
    else if c = '-' then (tokLoop f cs).map (fun ts => Tok.minus :: ts)
    else if c = '*' then (tokLoop f cs).map (fun ts => Tok.star :: ts)
    else if c = '/' then (tokLoop f cs).map (fun ts => Tok.slash :: ts)
    else if c = '%' then (tokLoop f cs).map (fun ts => Tok.percent :: ts)
    else if c = '(' then (tokLoop f cs).map (fun ts => Tok.lparen :: ts)
    else if c = ')' then (tokLoop f cs).map (fun ts => Tok.rparen :: ts)
    else if c.toNat = 123 then (tokLoop f cs).map (fun ts => Tok.lbrace :: ts)
    else if c.toNat = 125 then (tokLoop f cs).map (fun ts => Tok.rbrace :: ts)
    else if c = ',' then (tokLoop f cs).map (fun ts => Tok.comma :: ts)
    else none

/-- Tokenize a constraint string. -/
def tokenize (s : String) : Option (List Tok) :=
  tokLoop (s.length + 1) s.data

/-- Arithmetic operator denoted by a token, when any. -/
def aopOf : Tok → Option AOp
  | Tok.plus => some AOp.add
  | Tok.minus => some AOp.sub
  | Tok.star => some AOp.mul
  | Tok.slash => some AOp.div
  | Tok.percent => some AOp.mod
  | _ => none

/-- Comparison operator denoted by a token, when any. -/
def relopOf : Tok → Option CmpOp
  | Tok.opEq => some CmpOp.ceq
  | Tok.opNe => some CmpOp.cne
  | Tok.opLt => some CmpOp.clt
  | Tok.opLe => some CmpOp.cle
  | Tok.opGt => some CmpOp.cgt
  | Tok.opGe => some CmpOp.cge
  | _ => none

mutual

/-- Arithmetic factor: literal, the bound identifier v, or a
parenthesised arithmetic expression. -/
def pAFactor : Nat → List Tok → Option (AExpr × List Tok)
  | 0, _ => none
  | _ + 1, Tok.num n :: ts => some (AExpr.lit (Lit.ln n), ts)
  | _ + 1, Tok.str s :: ts => some (AExpr.lit (Lit.ls s), ts)
  | _ + 1, Tok.ident s :: ts =>
      if s = "v" then some (AExpr.var, ts) else none
  | f + 1, Tok.lparen :: ts =>
      match pAExpr f ts with
      | some (a, Tok.rparen :: ts2) => some (a, ts2)
      | _ => none
  | _ + 1, _ => none

/-- Left-associative chain of * / % after a first factor. -/
def pATermRest : Nat → AExpr → List Tok → Option (AExpr × List Tok)
  | 0, _, _ => none
  | f + 1, a, t :: ts =>
      match aopOf t with
      | some AOp.mul =>
          match pAFactor f ts with
          | some (b, ts2) => pATermRest f (AExpr.bin AOp.mul a b) ts2
          | none => none
      | some AOp.div =>
          match pAFactor f ts with
          | some (b, ts2) => pATermRest f (AExpr.bin AOp.div a b) ts2
          | none => none
      | some AOp.mod =>
          match pAFactor f ts with
          | some (b, ts2) => pATermRest f (AExpr.bin AOp.mod a b) ts2
          | none => none
      | _ => some (a, t :: ts)
  | _ + 1, a, [] => some (a, [])

/-- Arithmetic term: factors joined by * / %. -/
def pATerm : Nat → List Tok → Option (AExpr × List Tok)
  | 0, _ => none
  | f + 1, ts =>
      match pAFactor f ts with
      | some (a, ts2) => pATermRest f a ts2
      | none => none

/-- Left-associative chain of + - after a first term. -/
def pAExprRest : Nat → AExpr → List Tok → Option (AExpr × List Tok)
  | 0, _, _ => none
  | f + 1, a, Tok.plus :: ts =>
      match pATerm f ts with
      | some (b, ts2) => pAExprRest f (AExpr.bin AOp.add a b) ts2
      | none => none
  | f + 1, a, Tok.minus :: ts =>
      match pATerm f ts with
      | some (b, ts2) => pAExprRest f (AExpr.bin AOp.sub a b) ts2
      | none => none
  | _ + 1, a, ts => some (a, ts)

/-- Arithmetic expression: terms joined by + -. -/
def pAExpr : Nat → List Tok → Option (AExpr × List Tok)
  | 0, _ => none
  | f + 1, ts =>
      match pATerm f ts with
      | some (a, ts2) => pAExprRest f a ts2
      | none => none

end

/-- Literal list inside the braces of the membership predicate. -/
def pLits : Nat → List Tok → Option (List Lit × List Tok)
  | 0, _ => none
  | f + 1, Tok.num n :: Tok.comma :: ts =>
      match pLits f ts with
      | some (ls, r) => some (Lit.ln n :: ls, r)
      | none => none
  | _ + 1, Tok.num n :: ts => some ([Lit.ln n], ts)
  | f + 1, Tok.str s :: Tok.comma :: ts =>
      match pLits f ts with
      | some (ls, r) => some (Lit.ls s :: ls, r)
      | none => none
  | _ + 1, Tok.str s :: ts => some ([Lit.ls s], ts)
  | _ + 1, _ => none

/-- Membership predicate: ops_in(v, \x7bliteral, ...\x7d)
(spec section 4.5; the predicate name used by the repository demo). -/
def pMem : Nat → List Tok → Option (CExpr × List Tok)
  | 0, _ => none
  | f + 1, Tok.ident name :: Tok.lparen :: Tok.ident vv :: Tok.comma ::
      Tok.lbrace :: ts =>
      if name = "ops_in" && vv = "v" then
        match pLits f ts with
        | some (lits, Tok.rbrace :: Tok.rparen :: ts2) =>
            some (CExpr.mem lits, ts2)
        | _ => none
      else none
  | _ + 1, _ => none

/-- Comparison: two arithmetic expressions joined by a relational
operator. -/
def pCmp : Nat → List Tok → Option (CExpr × List Tok)
  | 0, _ => none
  | f + 1, ts =>
      match pAExpr f ts with
      | some (a, t :: ts2) =>
          match relopOf t with
          | some o =>
              match pAExpr f ts2 with
              | some (b, ts3) => some (CExpr.cmp o a b, ts3)
              | none => none
          | none => none
      | _ => none

mutual

/-- Boolean factor: membership predicate, comparison, or a parenthesised
boolean expression. -/
def pBFactor : Nat → List Tok → Option (CExpr × List Tok)
  | 0, _ => none
  | f + 1, ts =>
      match pMem f ts with
      | some r => some r
      | none =>
        match pCmp f ts with
        | some r => some r
        | none =>
          match ts with
          | Tok.lparen :: ts1 =>
              match pBOr f ts1 with
              | some (e, Tok.rparen :: ts2) => some (e, ts2)
              | _ => none
          | _ => none

/-- Left-associative chain of and after a first boolean factor. -/
def pBAndRest : Nat → CExpr → List Tok → Option (CExpr × List Tok)
  | 0, _, _ => none
  | f + 1, a, Tok.ident s :: ts =>
      if s = "and" then
        match pBFactor f ts with
        | some (b, ts2) => pBAndRest f (CExpr.cand a b) ts2
        | none => none
      else some (a, Tok.ident s :: ts)
  | _ + 1, a, ts => some (a, ts)

/-- Conjunction level of the boolean grammar. -/
def pBAnd : Nat → List Tok → Option (CExpr × List Tok)
  | 0, _ => none
  | f + 1, ts =>
      match pBFactor f ts with
      | some (a, ts2) => pBAndRest f a ts2
      | none => none

/-- Left-associative chain of or after a first conjunction. -/
def pBOrRest : Nat → CExpr → List Tok → Option (CExpr × List Tok)
  | 0, _, _ => none
  | f + 1, a, Tok.ident s :: ts =>
      if s = "or" then
        match pBAnd f ts with
        | some (b, ts2) => pBOrRest f (CExpr.cor a b) ts2
        | none => none
      else some (a, Tok.ident s :: ts)
  | _ + 1, a, ts => some (a, ts)

/-- Disjunction level: entry point of the boolean grammar. -/
def pBOr : Nat → List Tok → Option (CExpr × List Tok)
  | 0, _ => none
  | f + 1, ts =>
      match pBAnd f ts with
      | some (a, ts2) => pBOrRest f a ts2
      | none => none

end

/-- Modelled from the spec: the constraint-expression front end —
tokenize, parse with the recursive-descent grammar of section 4.5, and
require the whole input to be consumed.  none signals a malformed
expression (ConstraintExpressionError). -/
def parseConstraint (s : String) : Option CExpr :=
  match tokenize s with
  | none => none
  | some ts =>
    match pBOr (10 * (ts.length + 1)) ts with
    | some (e, []) => some e
    | _ => none

/-- Segments of a character stream, split at every dot; the empty stream
has one empty segment. -/
def rawSegs : List Char → List (List Char)
  | [] => [[]]
  | c :: cs =>
    if c = '.' then [] :: rawSegs cs
    else
      match rawSegs cs with
      | [] => [[c]]
      | s :: rest => (c :: s) :: rest

/-- Modelled from the spec: split a key path into its non-empty
dot-separated segments (spec section 4.1, "splits prefix and key into
segments"; the demo sets the path "name." whose trailing dot contributes
no segment). -/
def segsOf (s : String) : List String :=
  ((rawSegs s.data).filter (fun l => l ≠ [])).map (fun l => String.mk l)

/-- First binding of a key in a record's field list (document order). -/
def lookupField : List (String × Node) → String → Option Node
  | [], _ => none
  | (k, n) :: rest, key => if k = key then some n else lookupField rest key

/-- Modelled from the spec: walk the record chain segment by segment;
each step requires the current node to be a Record containing the next
segment, otherwise the walk yields none — never a crash (spec section
4.1).  An empty segment list yields the current node itself. -/
def walk : Node → List String → Option Node
  | n, [] => some n
  | Node.record fields, seg :: rest =>
      match lookupField fields seg with
      | some child => walk child rest
      | none => none
  | Node.scalar _, _ :: _ => none
  | Node.vector _, _ :: _ => none

/-- Modelled from the spec: the Path Resolver — absolute path =
prefix-segments ++ key-segments, walked from the root
(spec sections 3 and 4.1). -/
def resolve (root : Node) (pfx key : String) : Option Node :=
  walk root (segsOf pfx ++ segsOf key)

/-- Modelled from the spec: the Type Coercion Layer — scalar targets
require a Scalar of matching kind (with Int→Float widening permitted),
vector targets a Vector whose elements all have the requested kind;
anything else is a TypeMismatch, reported as none (spec section 4.2). -/
def coerce (n : Node) (t : Ty) : Option TRes :=
  match t, n with
  | Ty.sc k, Node.scalar s =>
      if s.kind = k then some (TRes.scal s)
      else
        match k, s with
        | SKind.kFloat, Scal.int i => some (TRes.scal (Scal.float (i : Rat)))
        | _, _ => none
  | Ty.vec k, Node.vector es =>
      if es.all (fun e => e.kind == k) then some (TRes.vect es) else none
  | _, _ => none

/-- Modelled from the spec: the Entry Enumerator — the ordered direct
child key-segments of a Record node (spec section 4.3). -/
def entriesOf : Node → Option (List String)
  | Node.record fields => some (fields.map Prod.fst)
  | _ => none

/-- Per-element constraint check over a vector value, in document order:
first evaluation failure reports ConstraintExpressionError, first
rejected element reports ConstraintViolation, none means all elements
satisfy the constraint (spec section 4.5, vector rule). -/
def checkElems (expr : String) (e : CExpr) : List Scal → Option Err
  | [] => none
  | s :: rest =>
      match evalC e s with
      | none => some (Err.constraintExprError expr)
      | some false => some (Err.constraintViolation expr)
      | some true => checkElems expr e rest

/-- Modelled from the spec: the Ops Facade state — the loaded document
root and the mutable Active Prefix (spec section 3). -/
structure Ops where
  root : Node
  pfx : String

/-- Modelled from the spec: the facade after SetPrefix, a pure mutation
of the Active Prefix with no validation against the document
(spec section 4.4). -/
def Ops.setPfx (st : Ops) (p : String) : Ops :=
  { st with pfx := p }

/-- Modelled from the spec: the facade after ClearPrefix
(spec sections 3 and 4.4). -/
def Ops.clearPfx (st : Ops) : Ops :=
  { st with pfx := "" }

/-- Modelled from the spec: the Get state machine of section 4.4 —
resolve; on not-found return the default if supplied else MissingKey;
on found coerce, failing with TypeMismatch regardless of default; then,
when the constraint string is non-empty, parse it (malformed →
ConstraintExpressionError) and evaluate it on the value — once for a
scalar, once per element for a vector (rejection → ConstraintViolation). -/
def Ops.get (st : Ops) (t : Ty) (key c : String) (dflt : Option TRes) :
    Except Err TRes :=
  match resolve st.root st.pfx key with
  | none =>
    match dflt with
    | some d => Except.ok d
    | none => Except.error Err.missingKey
  | some n =>
    match coerce n t with
    | none => Except.error (Err.typeMismatch t)
    | some v =>
      if c = "" then Except.ok v
      else
        match parseConstraint c with
        | none => Except.error (Err.constraintExprError c)
        | some e =>
          match v with
          | TRes.scal s =>
            match evalC e s with
            | none => Except.error (Err.constraintExprError c)
            | some true => Except.ok v
            | some false => Except.error (Err.constraintViolation c)
          | TRes.vect es =>
            match checkElems c e es with
            | none => Except.ok v
            | some err => Except.error err

/-- Modelled from the spec: GetEntryList — resolve the key, then
enumerate the record's children; absence is MissingKey, a non-Record
node is a TypeMismatch (spec sections 4.3 and 6). -/
def Ops.getEntryList (st : Ops) (key : String) : Except Err (List String) :=
  match resolve st.root st.pfx key with
  | none => Except.error Err.missingKey
  | some n =>
    match entriesOf n with
    | some es => Except.ok es
    | none => Except.error (Err.typeMismatch (Ty.sc SKind.kString))

/-- Typed binding wrapper over the generic Get (the Python binding's
GetString). -/
def Ops.getString (st : Ops) (key c : String) (dflt : Option String) :
    Except Err String :=
  match st.get (Ty.sc SKind.kString) key c (dflt.map (fun d => TRes.scal (Scal.str d))) with
  | Except.ok (TRes.scal (Scal.str s)) => Except.ok s
  | Except.ok _ => Except.error (Err.typeMismatch (Ty.sc SKind.kString))
  | Except.error e => Except.error e

/-- Typed binding wrapper over the generic Get (the Python binding's
GetInt). -/
def Ops.getInt (st : Ops) (key c : String) (dflt : Option Int) :
    Except Err Int :=
  match st.get (Ty.sc SKind.kInt) key c (dflt.map (fun d => TRes.scal (Scal.int d))) with
  | Except.ok (TRes.scal (Scal.int i)) => Except.ok i
  | Except.ok _ => Except.error (Err.typeMismatch (Ty.sc SKind.kInt))
  | Except.error e => Except.error e

/-- Typed binding wrapper over the generic Get (the Python binding's
GetBool). -/
def Ops.getBool (st : Ops) (key c : String) (dflt : Option Bool) :
    Except Err Bool :=
  match st.get (Ty.sc SKind.kBool) key c (dflt.map (fun d => TRes.scal (Scal.bool d))) with
  | Except.ok (TRes.scal (Scal.bool b)) => Except.ok b
  | Except.ok _ => Except.error (Err.typeMismatch (Ty.sc SKind.kBool))
  | Except.error e => Except.error e

/-- Typed binding wrapper over the generic Get (the Python binding's
GetVectInt). -/
def Ops.getVectInt (st : Ops) (key c : String) (dflt : Option (List Int)) :
    Except Err (List Scal) :=
  match st.get (Ty.vec SKind.kInt) key c
      (dflt.map (fun d => TRes.vect (d.map Scal.int))) with
  | Except.ok (TRes.vect l) => Except.ok l
  | Except.ok _ => Except.error (Err.typeMismatch (Ty.vec SKind.kInt))
  | Except.error e => Except.error e

/-- A concrete document in the shape of the spec's scenario section:
scalar leaves, a string vector, a two-child record under name, and an
int vector under compositions. -/
def demoDoc : Node :=
  Node.record
    [("last_name", Node.scalar (Scal.str "Handel")),
     ("birth_year", Node.scalar (Scal.int 1685)),
     ("nationality", Node.vector [Scal.str "German", Scal.str "British"]),
     ("name",
       Node.record
         [("first", Node.scalar (Scal.str "George")),
          ("middle", Node.scalar (Scal.str "Frideric"))]),
     ("death_age", Node.scalar (Scal.int 74)),
     ("one_composition", Node.scalar (Scal.str "Messiah")),
     ("compositions",
       Node.record
         [("concerti_grossi_op_6",
           Node.vector [Scal.int 1, Scal.int 2, Scal.int 12])])]

theorem rawSegs_ne_nil : ∀ l : List Char, rawSegs l ≠ []
  | [] => by simp [rawSegs]
  | c :: cs => by
      simp only [rawSegs]
      split
      · simp
      · split <;> simp

/-- Splitting distributes over an explicit dot: the segments of
l1 ++ dot ++ l2 are the segments of l1 followed by those of l2. -/
theorem rawSegs_append_dot (l1 l2 : List Char) :
    rawSegs (l1 ++ '.' :: l2) = rawSegs l1 ++ rawSegs l2 := by
  induction l1 with
  | nil => simp [rawSegs]
  | cons c cs ih =>
    by_cases h : c = '.'
    · subst h
      simp [rawSegs, ih]
    · obtain ⟨s, rest, hs⟩ := List.exists_cons_of_ne_nil (rawSegs_ne_nil cs)
      simp only [List.cons_append, rawSegs, if_neg h, ih, hs, List.append_eq]

/-- Key-path concatenation through a dot splits into the two segment
lists: the algebraic core of the prefix-equivalence property. -/
theorem segsOf_concat (p k : String) :
    segsOf (p ++ "." ++ k) = segsOf p ++ segsOf k := by
  have hd : (p ++ "." ++ k).data = p.data ++ '.' :: k.data := by
    simp [String.data_append]
  simp only [segsOf, hd, rawSegs_append_dot, List.filter_append,
    List.map_append]

/-- Walking a concatenated segment list is walking the first part, then
the second from wherever the first arrived. -/
theorem walk_append (n : Node) (l1 l2 : List String) :
    walk n (l1 ++ l2) = (walk n l1).bind (fun m => walk m l2) := by
  induction l1 generalizing n with
  | nil => simp [walk]
  | cons s rest ih =>
    cases n with
    | scalar x => simp [walk]
    | vector x => simp [walk]
    | record fields =>
      simp only [List.cons_append, walk]
      cases lookupField fields s with
      | none => simp
      | some child => simp [ih]

/-- The per-element check accepts exactly when every element of the
vector satisfies the constraint. -/
theorem checkElems_eq_none_iff (c : String) (e : CExpr)
    (l : List Scal) :
    checkElems c e l = none ↔ ∀ x ∈ l, evalC e x = some true := by
  induction l with
  | nil => simp [checkElems]
  | cons s rest ih =>
    simp only [checkElems]
    cases h : evalC e s with
    | none => simp [h]
    | some b => cases b <;> simp [h, ih]

/-- When every element evaluates to a verdict and some element rejects,
the per-element check reports a ConstraintViolation. -/
theorem checkElems_violation (c : String) (e : CExpr) (l : List Scal)
    (hall : ∀ x ∈ l, (evalC e x).isSome)
    (hex : ∃ x ∈ l, evalC e x = some false) :
    checkElems c e l = some (Err.constraintViolation c) := by
  induction l with
  | nil => simp at hex
  | cons s rest ih =>
    simp only [checkElems]
    cases h : evalC e s with
    | none =>
      have hs := hall s (by simp)
      rw [h] at hs
      simp at hs
    | some b =>
      cases b with
      | false => rfl
      | true =>
        apply ih
        · intro x hx
          exact hall x (List.mem_cons_of_mem _ hx)
        · obtain ⟨x, hx, hfx⟩ := hex
          rcases List.mem_cons.mp hx with rfl | hx2
          · rw [h] at hfx
            simp at hfx
          · exact ⟨x, hx2, hfx⟩

/-- Claim C1: for every key absent from the document and every
caller-supplied default D, Get returns D immediately for any constraint
string whatsoever (well-formed, malformed, or empty) — the constraint is
never evaluated on a default. -/
theorem claim_C1_absent_key_returns_default (st : Ops) (t : Ty)
    (key c : String) (d : TRes)
    (h : resolve st.root st.pfx key = none) :
    st.get t key c (some d) = Except.ok d := by
  simp [Ops.get, h]

/-- Witness for C1 at the spec's scenario 6: Show_compositions is absent
from the demo document, and GetBool with a default of true returns true
even under a malformed constraint string. -/
theorem claim_C1_witness :
    resolve demoDoc "" "Show_compositions" = none ∧
    (Ops.mk demoDoc "").get (Ty.sc SKind.kBool) "Show_compositions" "(("
        (some (TRes.scal (Scal.bool true))) =
      Except.ok (TRes.scal (Scal.bool true)) :=
  ⟨rfl,
   claim_C1_absent_key_returns_default (Ops.mk demoDoc "")
     (Ty.sc SKind.kBool) "Show_compositions" "((" (TRes.scal (Scal.bool true))
     rfl⟩

/-- Claim C2: a key present with a non-matching shape fails with
TypeMismatch regardless of the supplied default, and TypeMismatch is
distinct from MissingKey. -/
theorem claim_C2_shape_mismatch_fails (st : Ops) (t : Ty) (key c : String)
    (dflt : Option TRes) (n : Node)
    (hres : resolve st.root st.pfx key = some n)
    (hco : coerce n t = none) :
    st.get t key c dflt = Except.error (Err.typeMismatch t) ∧
    Err.typeMismatch t ≠ Err.missingKey := by
  refine ⟨?_, fun hcontra => Err.noConfusion hcontra⟩
  simp [Ops.get, hres, hco]

/-- Witness for C2: birth_year is an Int scalar in the demo document, so
requesting it as a String fails with TypeMismatch even though a default
was supplied. -/
theorem claim_C2_witness :
    resolve demoDoc "" "birth_year" = some (Node.scalar (Scal.int 1685)) ∧
    coerce (Node.scalar (Scal.int 1685)) (Ty.sc SKind.kString) = none ∧
    (Ops.mk demoDoc "").get (Ty.sc SKind.kString) "birth_year" ""
        (some (TRes.scal (Scal.str "fallback"))) =
      Except.error (Err.typeMismatch (Ty.sc SKind.kString)) :=
  ⟨rfl, rfl,
   (claim_C2_shape_mismatch_fails (Ops.mk demoDoc "") (Ty.sc SKind.kString)
     "birth_year" "" (some (TRes.scal (Scal.str "fallback")))
     (Node.scalar (Scal.int 1685)) rfl rfl).1⟩

/-- Claim C3: a key absent from the document with no default fails with
the MissingKey error kind. -/
theorem claim_C3_absent_key_missing_key (st : Ops) (t : Ty)
    (key c : String)
    (h : resolve st.root st.pfx key = none) :
    st.get t key c none = Except.error Err.missingKey := by
  simp [Ops.get, h]

/-- Witness for C3: Show_compositions is absent and no default is
supplied, so the call fails with MissingKey. -/
theorem claim_C3_witness :
    (Ops.mk demoDoc "").get (Ty.sc SKind.kBool) "Show_compositions" ""
        none =
      Except.error Err.missingKey :=
  claim_C3_absent_key_missing_key (Ops.mk demoDoc "") (Ty.sc SKind.kBool)
    "Show_compositions" "" rfl

/-- Claim C4: a key present as a Scalar whose kind matches the requested
type is returned exactly as stored with no constraint — round-trip
identity for Int, Float, Bool and String. -/
theorem claim_C4_roundtrip_identity (st : Ops) (k : SKind) (key : String)
    (dflt : Option TRes) (s : Scal)
    (hres : resolve st.root st.pfx key = some (Node.scalar s))
    (hk : s.kind = k) :
    st.get (Ty.sc k) key "" dflt = Except.ok (TRes.scal s) := by
  simp [Ops.get, hres, coerce, hk]

/-- Witness for C4 at scenario 1: GetString of last_name returns the
literal stored string. -/
theorem claim_C4_witness :
    resolve demoDoc "" "last_name" = some (Node.scalar (Scal.str "Handel")) ∧
    (Ops.mk demoDoc "").get (Ty.sc SKind.kString) "last_name" "" none =
      Except.ok (TRes.scal (Scal.str "Handel")) ∧
    (Ops.mk demoDoc "").getString "last_name" "" none =
      Except.ok "Handel" :=
  ⟨rfl,
   claim_C4_roundtrip_identity (Ops.mk demoDoc "") SKind.kString
     "last_name" none (Scal.str "Handel") rfl rfl,
   rfl⟩

/-- Claim C5: setting a prefix P and getting K gives the same result as
getting P ++ "." ++ K on the unprefixed facade, for every prefix, key,
type, constraint and default; in particular the spec's scenario 3 —
after GetEntryList of name, getting name.middle directly and getting
middle under the prefix produce the same value. -/
theorem claim_C5_prefixed_get_equals_concat_get :
    (∀ (st : Ops) (p k : String) (t : Ty) (c : String)
        (dflt : Option TRes),
      (st.setPfx p).get t k c dflt =
        (st.clearPfx).get t (p ++ "." ++ k) c dflt) ∧
    (Ops.mk demoDoc "").getEntryList "name" =
      Except.ok ["first", "middle"] ∧
    ((Ops.mk demoDoc "").setPfx "name.").getString "middle" "" none =
      (Ops.mk demoDoc "").getString ("name." ++ "middle") "" none ∧
    (Ops.mk demoDoc "").getString ("name." ++ "middle") "" none =
      Except.ok "Frideric" := by
  refine ⟨?_, rfl, ?_, rfl⟩
  · intro st p k t c dflt
    have h : resolve st.root p k = resolve st.root "" (p ++ "." ++ k) := by
      unfold resolve
      rw [segsOf_concat]
      have h0 : segsOf "" = [] := rfl
      rw [h0]
      simp
    simp [Ops.get, Ops.setPfx, Ops.clearPfx, h]
  · rfl

/-- Claim C6: for a vector value and a well-formed non-empty constraint,
the constraint is checked element by element — Get succeeds exactly when
every element satisfies it, any rejecting element makes the call fail
with ConstraintViolation, and an empty constraint string triggers no
evaluation at all. -/
theorem claim_C6_vector_per_element (st : Ops) (k : SKind) (key c : String)
    (dflt : Option TRes) (n : Node) (es : List Scal) (e : CExpr)
    (hres : resolve st.root st.pfx key = some n)
    (hco : coerce n (Ty.vec k) = some (TRes.vect es))
    (hc : c ≠ "")
    (hp : parseConstraint c = some e)
    (hwt : ∀ x ∈ es, (evalC e x).isSome) :
    (st.get (Ty.vec k) key c dflt = Except.ok (TRes.vect es) ↔
      ∀ x ∈ es, evalC e x = some true) ∧
    ((∃ x ∈ es, evalC e x = some false) →
      st.get (Ty.vec k) key c dflt =
        Except.error (Err.constraintViolation c)) ∧
    st.get (Ty.vec k) key "" dflt = Except.ok (TRes.vect es) := by
  have hBody : st.get (Ty.vec k) key c dflt =
      (match checkElems c e es with
       | none => Except.ok (TRes.vect es)
       | some err => Except.error err) := by
    simp [Ops.get, hres, hco, hc, hp]
  refine ⟨?_, ?_, ?_⟩
  · rw [hBody]
    cases hce : checkElems c e es with
    | none =>
      have hall := (checkElems_eq_none_iff c e es).mp hce
      simp
      exact hall
    | some err =>
      have hne : ¬ ∀ x ∈ es, evalC e x = some true := by
        intro hall
        rw [(checkElems_eq_none_iff c e es).mpr hall] at hce
        cases hce
      simp [hne]
  · intro hex
    rw [hBody, checkElems_violation c e es hwt hex]
  · simp [Ops.get, hres, hco]

/-- Parse tree of the demo's per-element vector constraint. -/
def demoVectAst : CExpr :=
  CExpr.cand
    (CExpr.cor
      (CExpr.cmp CmpOp.ceq
        (AExpr.bin AOp.mod AExpr.var (AExpr.lit (Lit.ln 2)))
        (AExpr.lit (Lit.ln 0)))
      (CExpr.cmp CmpOp.ceq
        (AExpr.bin AOp.mod AExpr.var (AExpr.lit (Lit.ln 2)))
        (AExpr.lit (Lit.ln 1))))
    (CExpr.cmp CmpOp.clt AExpr.var (AExpr.lit (Lit.ln 13)))

/-- Witness for C6 at the spec's scenario 5: every element of the demo
int vector satisfies the per-element constraint, so the call succeeds
with the full vector. -/
theorem claim_C6_witness :
    parseConstraint "(v % 2 == 0 or v % 2 == 1) and v < 13" =
      some demoVectAst ∧
    (Ops.mk demoDoc "").get (Ty.vec SKind.kInt)
        "compositions.concerti_grossi_op_6"
        "(v % 2 == 0 or v % 2 == 1) and v < 13" none =
      Except.ok (TRes.vect [Scal.int 1, Scal.int 2, Scal.int 12]) :=
  ⟨rfl,
   (claim_C6_vector_per_element (Ops.mk demoDoc "") SKind.kInt
       "compositions.concerti_grossi_op_6"
       "(v % 2 == 0 or v % 2 == 1) and v < 13" none
       (Node.vector [Scal.int 1, Scal.int 2, Scal.int 12])
       [Scal.int 1, Scal.int 2, Scal.int 12] demoVectAst
       rfl rfl (by decide) rfl (by decide)).1.mpr (by decide)⟩

/-- Claim C7: the constraint grammar accepted by the evaluator includes
the membership predicate over a fixed literal set — it parses, and it
evaluates to true exactly when the value under test equals one of the
listed string or number literals. -/
theorem claim_C7_membership_predicate :
    parseConstraint "ops_in(v, \x7b\x27Messiah\x27, \x27Water Music\x27\x7d)" =
      some (CExpr.mem [Lit.ls "Messiah", Lit.ls "Water Music"]) ∧
    (∀ (val : Scal) (lits : List Lit),
      evalC (CExpr.mem lits) val =
        some (lits.any (fun l => litMatches val l))) ∧
    (∀ (val : Scal) (lits : List Lit),
      evalC (CExpr.mem lits) val = some true ↔
        ∃ l ∈ lits, litMatches val l = true) ∧
    (∀ s t, litMatches (Scal.str s) (Lit.ls t) = (s == t)) ∧
    (∀ i m, litMatches (Scal.int i) (Lit.ln m) = (i == m)) := by
  refine ⟨rfl, fun val lits => rfl, ?_, fun s t => rfl, fun i m => rfl⟩
  intro val lits
  simp [evalC, List.any_eq_true]

/-- A document whose only child x is a scalar: setting the prefix to x
violates the Active-Prefix invariant (the prefix resolves to a
non-Record node). -/
def badDoc : Node :=
  Node.record [("x", Node.scalar (Scal.int 7))]

/-- Counterexample to C8 as stated: with the malformed prefix x (it
resolves to a Scalar, not a Record), the lookup of the empty key is NOT
NotFound — per the spec's own rule that an empty key resolves to the
prefix node itself, it finds the scalar, and Get returns its value. -/
theorem claim_C8_counterexample :
    walk badDoc (segsOf "x") = some (Node.scalar (Scal.int 7)) ∧
    Node.isRecord (Node.scalar (Scal.int 7)) = false ∧
    resolve badDoc "x" "" = some (Node.scalar (Scal.int 7)) ∧
    (Ops.mk badDoc "x").get (Ty.sc SKind.kInt) "" "" none =
      Except.ok (TRes.scal (Scal.int 7)) :=
  ⟨rfl, rfl, rfl, rfl⟩

/-- Claim C8 as amended: Resolve is total by construction and a lookup
miss is always the NotFound value, never a crash — a walk step from a
non-Record node with segments remaining yields NotFound, a missing
segment in a Record yields NotFound, a prefix that fails to resolve
makes every subsequent lookup NotFound, and a prefix resolving to a
non-Record node makes every lookup with a non-empty key NotFound (an
empty key resolves to the prefix node itself). -/
theorem claim_C8_resolve_total_not_found :
    (∀ (n : Node) (segs : List String),
      Node.isRecord n = false → segs ≠ [] → walk n segs = none) ∧
    (∀ (fields : List (String × Node)) (seg : String)
        (rest : List String),
      lookupField fields seg = none →
      walk (Node.record fields) (seg :: rest) = none) ∧
    (∀ (root : Node) (p k : String),
      walk root (segsOf p) = none → resolve root p k = none) ∧
    (∀ (root : Node) (p k : String) (n : Node),
      walk root (segsOf p) = some n → Node.isRecord n = false →
      segsOf k ≠ [] → resolve root p k = none) := by
  have hstep : ∀ (n : Node) (segs : List String),
      Node.isRecord n = false → segs ≠ [] → walk n segs = none := by
    intro n segs h1 h2
    cases segs with
    | nil => exact absurd rfl h2
    | cons s rest =>
      cases n with
      | scalar x => rfl
      | vector x => rfl
      | record fields => simp [Node.isRecord] at h1
  refine ⟨hstep, ?_, ?_, ?_⟩
  · intro fields seg rest h
    simp [walk, h]
  · intro root p k h
    unfold resolve
    rw [walk_append, h]
    rfl
  · intro root p k n h hn hk
    unfold resolve
    rw [walk_append, h]
    exact hstep n (segsOf k) hn hk

/-- Witness for C8: in the demo-sized document above, the malformed
prefix x makes the lookup of the non-empty key y NotFound. -/
theorem claim_C8_witness :
    resolve badDoc "x" "y" = none :=
  claim_C8_resolve_total_not_found.2.2.2 badDoc "x" "y"
    (Node.scalar (Scal.int 7)) rfl rfl (by decide)

/-- Claim C9: ClearPrefix after SetPrefix P restores unprefixed lookup
behaviour — Get on the cleared facade equals Get on a facade with the
same root where no prefix was ever set — and ClearPrefix is the same
state transition as SetPrefix of the empty string. -/
theorem claim_C9_clear_restores_unprefixed (st : Ops) (p : String)
    (t : Ty) (k c : String) (dflt : Option TRes) :
    ((st.setPfx p).clearPfx).get t k c dflt =
      (Ops.mk st.root "").get t k c dflt ∧
    (st.setPfx p).clearPfx = st.setPfx "" :=
  ⟨rfl, rfl⟩

end LibOps
